import Mathlib

/-!
Shallow embedding of the `supabase-function-rs` client library
(src/client.rs, src/models.rs, src/errors.rs) and proofs about its
request-building, response-classification and response-decoding logic.

Modelling conventions:
- Rust `HashMap<String, String>` becomes an association list with unique
  keys; `insert` replaces the (unique) existing entry or appends.
- The `http` crate's `HeaderMap` also becomes an association list; header
  names are normalised to lowercase at the insertion boundary, exactly as
  `HeaderName::try_from` / `HeaderName::from_static` do, so lookups are
  exact-match on the lowercase name.
- `serde_json::Value` becomes the inductive `JsonValue`; serialization is
  kept abstract (a request body carries the value, not its byte string),
  since the serializer is an external collaborator.
- The `reqwest::Response` collaborator is a record of its observable
  interface: status, headers, and the four body-reading operations
  (`json::<Value>()`, `bytes()`, `text()`, `json::<HashMap<String,String>>()`),
  each of which may fail with a transport/decode error message.
- The network transport (`RequestBuilder::send`) is a function parameter
  of `invoke`, returning either an error message or a `Response`.
-/

namespace SupabaseFunctions

/-- Model of `serde_json::Value` (numbers simplified to integers; no claim
depends on number representation). -/
inductive JsonValue where
  | null
  | bool (b : Bool)
  | num (n : Int)
  | str (s : String)
  | arr (elems : List JsonValue)
  | obj (fields : List (String × JsonValue))

/-- Model of `HashMap::insert` / `HeaderMap::insert` on an association
list: replace the (under the map invariant, unique) entry with the given
key, or append a fresh entry. -/
def mapInsert : List (String × String) → String → String → List (String × String)
  | [], k, v => [(k, v)]
  | p :: t, k, v => if p.1 == k then (k, v) :: t else p :: mapInsert t k v

/-- Model of `HashMap::get` / `HeaderMap::get`: value of the first entry
with the given key. -/
def mapLookup (m : List (String × String)) (k : String) : Option String :=
  (m.find? (fun p => p.1 == k)).map Prod.snd

/-- Number of entries with the given key. -/
def keyCount (m : List (String × String)) (k : String) : Nat :=
  m.countP (fun p => p.1 == k)

/-- RFC 7230 `tchar`, the valid characters of header names and methods,
as in the `http` crate's validity tables (char 39 is the apostrophe,
char 96 the backquote). -/
def isTokenChar (c : Char) : Bool :=
  c.isAlphanum || c == '!' || c == '#' || c == '$' || c == '%' || c == '&' ||
  c.toNat == 39 || c == '*' || c == '+' || c == '-' || c == '.' || c == '^' ||
  c == '_' || c.toNat == 96 || c == '|' || c == '~'

/-- Model of `http::HeaderName::try_from(&str)`: non-empty, all token
characters (uppercase letters allowed), normalised to lowercase. -/
def headerNameTryFrom (s : String) : Option String :=
  if s != "" && s.data.all (fun c => isTokenChar c.toLower) then some s.toLower else none

/-- Model of `http::HeaderValue::from_str`: every character must be
visible (no control characters except horizontal tab, no DEL). -/
def headerValueFromStr (s : String) : Option String :=
  if s.data.all (fun c => (decide (32 ≤ c.toNat) && c.toNat != 127) || c.toNat == 9)
  then some s else none

/-- The region enumeration of `models.rs` (`FunctionRegion`). -/
inductive FunctionRegion where
  | Any
  | ApNortheast1
  | ApNortheast2
  | ApSouth1
  | ApSoutheast1
  | ApSoutheast2
  | CaCentral1
  | EuCentral1
  | EuWest1
  | EuWest2
  | EuWest3
  | SaEast1
  | UsEast1
  | UsWest1
  | UsWest2
deriving DecidableEq, Repr

/-- The `Display` impl for `FunctionRegion` in `models.rs`. -/
def FunctionRegion.toString : FunctionRegion → String
  | .Any => "any"
  | .ApNortheast1 => "ap-northeast-1"
  | .ApNortheast2 => "ap-northeast-2"
  | .ApSouth1 => "ap-south-1"
  | .ApSoutheast1 => "ap-southeast-1"
  | .ApSoutheast2 => "ap-southeast-2"
  | .CaCentral1 => "ca-central-1"
  | .EuCentral1 => "eu-central-1"
  | .EuWest1 => "eu-west-1"
  | .EuWest2 => "eu-west-2"
  | .EuWest3 => "eu-west-3"
  | .SaEast1 => "sa-east-1"
  | .UsEast1 => "us-east-1"
  | .UsWest1 => "us-west-1"
  | .UsWest2 => "us-west-2"

/-- The method enumeration of `models.rs` (`HttpMethod`). -/
inductive HttpMethod where
  | Post
  | Get
  | Put
  | Patch
  | Delete
deriving DecidableEq, Repr

/-- `HttpMethod::as_str` from `models.rs`. -/
def HttpMethod.as_str : HttpMethod → String
  | .Post => "POST"
  | .Get => "GET"
  | .Put => "PUT"
  | .Patch => "PATCH"
  | .Delete => "DELETE"

/-- The request-body union of `models.rs` (`InvokeBody`); byte buffers
(`Vec<u8>`) are lists of byte values. -/
inductive InvokeBody where
  | File (bytes : List Nat)
  | Blob (bytes : List Nat)
  | ArrayBuffer (bytes : List Nat)
  | FormData (fields : List (String × String))
  | Json (fields : List (String × JsonValue))
  | String (s : String)

/-- `FunctionInvokeOptions` from `models.rs`. -/
structure FunctionInvokeOptions where
  headers : Option (List (String × String))
  method : Option HttpMethod
  region : Option FunctionRegion
  body : Option InvokeBody

/-- The `Default` instance of `FunctionInvokeOptions` (all fields `None`). -/
def FunctionInvokeOptions.default : FunctionInvokeOptions :=
  { headers := none, method := none, region := none, body := none }

/-- The error taxonomy of `errors.rs` (`FunctionsError`). -/
inductive FunctionsError where
  | FetchError (msg : String)
  | HttpError (msg : String)
  | RelayError (msg : String)
deriving DecidableEq, Repr

/-- The response-payload union of `models.rs` (`ResponseData`). -/
inductive ResponseData where
  | Json (v : JsonValue)
  | Text (s : String)
  | Bytes (b : List Nat)
  | FormData (m : List (String × String))

/-- The invocation-outcome union of `models.rs` (`FunctionsResponse`). -/
inductive FunctionsResponse where
  | Success (data : ResponseData)
  | Failure (error : FunctionsError)

/-- The transport's method type, modelling `http::Method`: the standard
methods plus extension methods. -/
inductive Method where
  | GET
  | POST
  | PUT
  | DELETE
  | HEAD
  | OPTIONS
  | CONNECT
  | PATCH
  | TRACE
  | Extension (s : String)
deriving DecidableEq, Repr

/-- Model of `http::Method::from_str` (the `method_str.parse()` call in
`client.rs` line 65 etc.): standard methods by exact string, otherwise an
extension method when the string is a non-empty token. -/
def Method.fromStr (s : String) : Option Method :=
  match s with
  | "GET" => some Method.GET
  | "PUT" => some Method.PUT
  | "POST" => some Method.POST
  | "HEAD" => some Method.HEAD
  | "PATCH" => some Method.PATCH
  | "TRACE" => some Method.TRACE
  | "DELETE" => some Method.DELETE
  | "OPTIONS" => some Method.OPTIONS
  | "CONNECT" => some Method.CONNECT
  | _ => if s != "" && s.data.all isTokenChar then some (Method.Extension s) else none

/-- How the wire body of the outgoing request is set, mirroring the five
arms of the `match options.body` in `client.rs` lines 60-83: raw bytes
(`.body(file.clone())`), raw string (`.body(s.clone())`), JSON
serialization (`.json(json)` — kept abstract as the value itself),
multipart form with one text field per entry (`.multipart(form)`), or no
body at all. -/
inductive RequestBody where
  | none
  | bytes (b : List Nat)
  | text (s : String)
  | json (fields : List (String × JsonValue))
  | multipart (fields : List (String × String))

/-- The outgoing request assembled by `invoke` before it is sent: method,
URL, the header map built by the code in `client.rs` (names lowercase),
and the body. The multipart boundary header that `reqwest` itself adds at
send time belongs to the transport collaborator and is not part of the
headers this code sets. -/
structure Request where
  method : Method
  url : String
  headers : List (String × String)
  body : RequestBody

/-- Client state from `client.rs` lines 8-14 (`FunctionsClient`); the
`reqwest::Client` handle carries no observable state and is omitted. -/
structure FunctionsClient where
  url : String
  headers : List (String × String)
  region : FunctionRegion

/-- `FunctionsClient::new` (`client.rs` lines 17-24). -/
def FunctionsClient.new (url : String) (headers : Option (List (String × String)))
    (region : Option FunctionRegion) : FunctionsClient :=
  { url := url, headers := headers.getD [], region := region.getD FunctionRegion.Any }

/-- `FunctionsClient::set_auth` (`client.rs` lines 26-28). -/
def FunctionsClient.set_auth (self : FunctionsClient) (token : String) : FunctionsClient :=
  { self with headers := mapInsert self.headers "Authorization" ("Bearer " ++ token) }

/-- The persistent-header conversion loop of `invoke` (`client.rs` lines
38-44): each entry's name goes through `HeaderName::try_from`, its value
through `HeaderValue::from_str`, and the pair is inserted into a fresh
`HeaderMap`; the first failure aborts with a `FetchError`. -/
def buildReqHeaders (headers : List (String × String)) :
    Except FunctionsError (List (String × String)) :=
  headers.foldlM
    (fun req_headers kv =>
      match headerNameTryFrom kv.1 with
      | Option.none => Except.error (FunctionsError.FetchError "Invalid header name")
      | some name =>
        match headerValueFromStr kv.2 with
        | Option.none => Except.error (FunctionsError.FetchError "Invalid header value")
        | some value => Except.ok (mapInsert req_headers name value))
    []

/-- The region step of `invoke` (`client.rs` lines 46-53): only a
supplied per-call region other than `Any` inserts the `x-region` header,
with the region's `Display` encoding as value. -/
def regionHeaders (req_headers : List (String × String)) :
    Option FunctionRegion → Except FunctionsError (List (String × String))
  | some region =>
    if region ≠ FunctionRegion.Any then
      match headerValueFromStr region.toString with
      | Option.none => Except.error (FunctionsError.FetchError "Invalid region value")
      | some value => Except.ok (mapInsert req_headers "x-region" value)
    else Except.ok req_headers
  | Option.none => Except.ok req_headers

/-- The body dispatch of `invoke` (`client.rs` lines 60-83), producing
the final request: the three binary variants insert
`Content-Type: application/octet-stream` (name normalised to lowercase by
`HeaderMap`) and attach the raw bytes; the string variant inserts
`text/plain` and attaches the string; the JSON variant inserts
`application/json` and attaches the JSON mapping; the form-data variant
inserts no header and attaches a multipart body with one text field per
entry; no body attaches nothing. -/
def finishRequest (method : Method) (url : String) (req_headers : List (String × String)) :
    Option InvokeBody → Request
  | some (InvokeBody.File file) =>
    ⟨method, url, mapInsert req_headers "content-type" "application/octet-stream",
      RequestBody.bytes file⟩
  | some (InvokeBody.Blob file) =>
    ⟨method, url, mapInsert req_headers "content-type" "application/octet-stream",
      RequestBody.bytes file⟩
  | some (InvokeBody.ArrayBuffer file) =>
    ⟨method, url, mapInsert req_headers "content-type" "application/octet-stream",
      RequestBody.bytes file⟩
  | some (InvokeBody.String s) =>
    ⟨method, url, mapInsert req_headers "content-type" "text/plain", RequestBody.text s⟩
  | some (InvokeBody.FormData form_data) =>
    ⟨method, url, req_headers, RequestBody.multipart form_data⟩
  | some (InvokeBody.Json json) =>
    ⟨method, url, mapInsert req_headers "content-type" "application/json",
      RequestBody.json json⟩
  | Option.none => ⟨method, url, req_headers, RequestBody.none⟩

/-- The request-building half of `invoke` (`client.rs` lines 35-83):
default options, persistent-header conversion, conditional region header,
method defaulting to POST, URL concatenation, and body dispatch. The
source's `method_str.parse().unwrap()` is modelled by defaulting the
`Option`; `method_parse_total` shows the default in the `getD` is never
taken. -/
def buildRequest (self : FunctionsClient) (function_name : String)
    (options? : Option FunctionInvokeOptions) : Except FunctionsError Request := do
  let options := options?.getD FunctionInvokeOptions.default
  let base ← buildReqHeaders self.headers
  let req_headers ← regionHeaders base options.region
  let method := options.method.getD HttpMethod.Post
  let url := self.url ++ "/" ++ function_name
  let m := (Method.fromStr method.as_str).getD (Method.Extension method.as_str)
  Except.ok (finishRequest m url req_headers options.body)

/-- The observable interface of the `reqwest::Response` collaborator:
status code, response headers (names lowercase, as `reqwest` stores
them), and the four body-reading operations used by `invoke`, each of
which may fail with a transport/decode error message. -/
structure Response where
  status : Nat
  headers : List (String × String)
  jsonBody : Except String JsonValue
  bytesBody : Except String (List Nat)
  textBody : Except String String
  formBody : Except String (List (String × String))

/-- `http::StatusCode::is_success`: the 2xx range. -/
def statusIsSuccess (status : Nat) : Bool :=
  decide (200 ≤ status) && decide (status < 300)

/-- `http::StatusCode::canonical_reason` for the registered status codes. -/
def canonicalReason : Nat → Option String
  | 100 => some "Continue"
  | 101 => some "Switching Protocols"
  | 102 => some "Processing"
  | 200 => some "OK"
  | 201 => some "Created"
  | 202 => some "Accepted"
  | 203 => some "Non-Authoritative Information"
  | 204 => some "No Content"
  | 205 => some "Reset Content"
  | 206 => some "Partial Content"
  | 207 => some "Multi-Status"
  | 208 => some "Already Reported"
  | 226 => some "IM Used"
  | 300 => some "Multiple Choices"
  | 301 => some "Moved Permanently"
  | 302 => some "Found"
  | 303 => some "See Other"
  | 304 => some "Not Modified"
  | 305 => some "Use Proxy"
  | 307 => some "Temporary Redirect"
  | 308 => some "Permanent Redirect"
  | 400 => some "Bad Request"
  | 401 => some "Unauthorized"
  | 402 => some "Payment Required"
  | 403 => some "Forbidden"
  | 404 => some "Not Found"
  | 405 => some "Method Not Allowed"
  | 406 => some "Not Acceptable"
  | 407 => some "Proxy Authentication Required"
  | 408 => some "Request Timeout"
  | 409 => some "Conflict"
  | 410 => some "Gone"
  | 411 => some "Length Required"
  | 412 => some "Precondition Failed"
  | 413 => some "Payload Too Large"
  | 414 => some "URI Too Long"
  | 415 => some "Unsupported Media Type"
  | 416 => some "Range Not Satisfiable"
  | 417 => some "Expectation Failed"
  | 418 => some "I\x27m a teapot"
  | 421 => some "Misdirected Request"
  | 422 => some "Unprocessable Entity"
  | 423 => some "Locked"
  | 424 => some "Failed Dependency"
  | 426 => some "Upgrade Required"
  | 428 => some "Precondition Required"
  | 429 => some "Too Many Requests"
  | 431 => some "Request Header Fields Too Large"
  | 451 => some "Unavailable For Legal Reasons"
  | 500 => some "Internal Server Error"
  | 501 => some "Not Implemented"
  | 502 => some "Bad Gateway"
  | 503 => some "Service Unavailable"
  | 504 => some "Gateway Timeout"
  | 505 => some "HTTP Version Not Supported"
  | 506 => some "Variant Also Negotiates"
  | 507 => some "Insufficient Storage"
  | 508 => some "Loop Detected"
  | 510 => some "Not Extended"
  | 511 => some "Network Authentication Required"
  | _ => Option.none

/-- The `Display` of `http::StatusCode` (`response.status().to_string()`
in `client.rs` line 95): the numeric code, a space, and the canonical
reason or a placeholder. -/
def statusToString (status : Nat) : String :=
  Nat.repr status ++ " " ++ (canonicalReason status).getD "<unknown status code>"

/-- The prefix of a string before its first semicolon, modelling
`split(';').next().unwrap_or(..)` in `client.rs` lines 103-105 (`next()`
on a split is never `None`, so the whole string when it has no
semicolon). -/
def beforeSemi (s : String) : String :=
  String.mk (s.data.takeWhile (fun c => c != ';'))

/-- Content-type extraction of `invoke` (`client.rs` lines 98-105): the
declared `content-type` header value, defaulting to `text/plain` when
absent, cut at the first `;`. (`HeaderValue::to_str` on a value our model
represents as a `String` always succeeds, so the `and_then` is the
identity here.) -/
def contentTypeOf (response : Response) : String :=
  beforeSemi ((mapLookup response.headers "content-type").getD "text/plain")

/-- The decoder dispatch of `invoke` (`client.rs` lines 107-128): exact,
case-sensitive match on the extracted content type; each reader's failure
becomes a `FetchError` with the reader's message. -/
def decodeData (response : Response) (content_type : String) :
    Except FunctionsError ResponseData :=
  if content_type = "application/json" then
    (response.jsonBody.mapError FunctionsError.FetchError).map ResponseData.Json
  else if content_type = "application/octet-stream" then
    (response.bytesBody.mapError FunctionsError.FetchError).map ResponseData.Bytes
  else if content_type = "text/event-stream" then
    (response.textBody.mapError FunctionsError.FetchError).map ResponseData.Text
  else if content_type = "multipart/form-data" then
    (response.formBody.mapError FunctionsError.FetchError).map ResponseData.FormData
  else
    (response.textBody.mapError FunctionsError.FetchError).map ResponseData.Text

/-- The response half of `invoke` (`client.rs` lines 88-130): the
relay-error check (header `x-relay-error` equal to the string `true`)
first, the status check second, then decoding; a decoded payload is
wrapped in `FunctionsResponse::Success`. -/
def handleResponse (response : Response) : Except FunctionsError FunctionsResponse :=
  if mapLookup response.headers "x-relay-error" = some "true" then
    Except.error (FunctionsError.RelayError "Relay Error invoking the Edge Function")
  else if !statusIsSuccess response.status then
    Except.error (FunctionsError.HttpError (statusToString response.status))
  else do
    let data ← decodeData response (contentTypeOf response)
    Except.ok (FunctionsResponse.Success data)

/-- `FunctionsClient::invoke` (`client.rs` lines 30-131), with the
network send (`request_builder.send().await`) supplied as the transport
collaborator: build the request, send it (a transport failure becomes a
`FetchError` with the transport's message), then classify and decode the
response. -/
def invoke (self : FunctionsClient) (function_name : String)
    (options? : Option FunctionInvokeOptions)
    (send : Request → Except String Response) : Except FunctionsError FunctionsResponse := do
  let request ← buildRequest self function_name options?
  match send request with
  | Except.error e => Except.error (FunctionsError.FetchError e)
  | Except.ok response => handleResponse response

/-- The transport method corresponding to each value of the `HttpMethod`
enumeration, i.e. the standard `http::Method` whose name is
`HttpMethod::as_str` of the value. -/
def stdMethod : HttpMethod → Method
  | HttpMethod.Post => Method.POST
  | HttpMethod.Get => Method.GET
  | HttpMethod.Put => Method.PUT
  | HttpMethod.Patch => Method.PATCH
  | HttpMethod.Delete => Method.DELETE

theorem mapLookup_insert_self (m : List (String × String)) (k v : String) :
    mapLookup (mapInsert m k v) k = some v := by
  induction m with
  | nil => simp [mapInsert, mapLookup]
  | cons p t ih =>
    by_cases hp : p.1 = k
    · simp [mapInsert, mapLookup, hp]
    · simpa [mapInsert, mapLookup, hp, List.find?_cons] using ih

theorem mapLookup_insert_ne (m : List (String × String)) (k v k' : String) (hk : k' ≠ k) :
    mapLookup (mapInsert m k v) k' = mapLookup m k' := by
  induction m with
  | nil => simp [mapInsert, mapLookup, Ne.symm hk]
  | cons p t ih =>
    by_cases hp : p.1 = k
    · simp [mapInsert, mapLookup, hp, Ne.symm hk, List.find?_cons]
    · by_cases hp' : p.1 = k'
      · simp [mapInsert, mapLookup, hp, hp', hk, Ne.symm hk, List.find?_cons]
      · simpa [mapInsert, mapLookup, hp, hp', List.find?_cons] using ih

theorem keyCount_insert (m : List (String × String)) (k v : String) :
    keyCount (mapInsert m k v) k = max (keyCount m k) 1 := by
  induction m with
  | nil => simp [mapInsert, keyCount]
  | cons p t ih =>
    by_cases hp : p.1 = k
    · simp [mapInsert, keyCount, hp, List.countP_cons]
    · have hpb : (p.1 == k) = false := by simpa using hp
      simpa [mapInsert, keyCount, hpb, List.countP_cons] using ih

theorem finishRequest_method (m : Method) (url : String) (rh : List (String × String))
    (body? : Option InvokeBody) : (finishRequest m url rh body?).method = m := by
  cases body? with
  | none => rfl
  | some b => cases b <;> rfl

theorem finishRequest_headers_lookup (m : Method) (url : String) (rh : List (String × String))
    (body? : Option InvokeBody) (k : String) (hk : k ≠ "content-type") :
    mapLookup (finishRequest m url rh body?).headers k = mapLookup rh k := by
  cases body? with
  | none => rfl
  | some b => cases b <;> simp [finishRequest, mapLookup_insert_ne _ _ _ _ hk]

theorem buildRequest_eq (self : FunctionsClient) (fn : String) (opts : FunctionInvokeOptions) :
    buildRequest self fn (some opts) =
      (buildReqHeaders self.headers).bind (fun base =>
        (regionHeaders base opts.region).map (fun rh =>
          finishRequest
            ((Method.fromStr (opts.method.getD HttpMethod.Post).as_str).getD
              (Method.Extension (opts.method.getD HttpMethod.Post).as_str))
            (self.url ++ "/" ++ fn) rh opts.body)) := by
  unfold buildRequest
  cases buildReqHeaders self.headers with
  | error e => rfl
  | ok base =>
    cases regionHeaders base opts.region with
    | error e => rfl
    | ok rh => rfl

theorem buildRequest_ok {self : FunctionsClient} {fn : String}
    {opts : FunctionInvokeOptions} {req : Request}
    (h : buildRequest self fn (some opts) = Except.ok req) :
    ∃ base rh, buildReqHeaders self.headers = Except.ok base ∧
      regionHeaders base opts.region = Except.ok rh ∧
      req = finishRequest
        ((Method.fromStr (opts.method.getD HttpMethod.Post).as_str).getD
          (Method.Extension (opts.method.getD HttpMethod.Post).as_str))
        (self.url ++ "/" ++ fn) rh opts.body := by
  rw [buildRequest_eq] at h
  cases h1 : buildReqHeaders self.headers with
  | error e => rw [h1] at h; simp [Except.bind] at h
  | ok base =>
    rw [h1] at h
    simp only [Except.bind] at h
    cases h2 : regionHeaders base opts.region with
    | error e => rw [h2] at h; simp [Except.bind, Except.map] at h
    | ok rh =>
      rw [h2] at h
      simp only [Except.bind, Except.map, Except.ok.injEq] at h
      exact ⟨base, rh, rfl, h2, h.symm⟩

/-- Claim C3: a response whose `x-relay-error` header is exactly the
string `true` yields `RelayError`, whatever the status code is (the
relay check precedes the status check). -/
theorem relay_error_precedence (r : Response)
    (h : mapLookup r.headers "x-relay-error" = some "true") :
    handleResponse r =
      Except.error (FunctionsError.RelayError "Relay Error invoking the Edge Function") := by
  simp [handleResponse, h]

theorem relay_error_precedence_witness :
    handleResponse
      { status := 404, headers := [("x-relay-error", "true")], jsonBody := Except.error "e",
        bytesBody := Except.error "e", textBody := Except.ok "", formBody := Except.error "e" } =
      Except.error (FunctionsError.RelayError "Relay Error invoking the Edge Function") :=
  relay_error_precedence
    { status := 404, headers := [("x-relay-error", "true")], jsonBody := Except.error "e",
      bytesBody := Except.error "e", textBody := Except.ok "", formBody := Except.error "e" }
    (by decide)

/-- Claim C4: a response with a status outside the 2xx range and without
the relay-error signal yields `HttpError` carrying the status text. -/
theorem non_success_status_http_error (r : Response)
    (hrelay : mapLookup r.headers "x-relay-error" ≠ some "true")
    (hstatus : statusIsSuccess r.status = false) :
    handleResponse r =
      Except.error (FunctionsError.HttpError (statusToString r.status)) := by
  simp [handleResponse, hrelay, hstatus]

theorem non_success_status_http_error_witness :
    handleResponse
      { status := 404, headers := [], jsonBody := Except.error "e",
        bytesBody := Except.error "e", textBody := Except.ok "", formBody := Except.error "e" } =
      Except.error (FunctionsError.HttpError "404 Not Found") :=
  non_success_status_http_error
    { status := 404, headers := [], jsonBody := Except.error "e",
      bytesBody := Except.error "e", textBody := Except.ok "", formBody := Except.error "e" }
    (by decide) (by decide)

theorem headerValueFromStr_region (region : FunctionRegion) :
    headerValueFromStr region.toString = some region.toString := by
  cases region <;> rfl

/-- Claim C1: the body variant determines the outgoing Content-Type and
body encoding - octet-stream with the raw bytes for the three binary
variants, text/plain with the raw string for the string variant,
application/json with the JSON mapping for the JSON variant, no explicit
Content-Type and a multipart body with one text field per entry for the
form-data variant, and no body at all when none is supplied. -/
theorem body_variant_sets_content_type
    (self : FunctionsClient) (fn : String) (opts : FunctionInvokeOptions) (req : Request)
    (h : buildRequest self fn (some opts) = Except.ok req) :
    (∀ bs, (opts.body = some (InvokeBody.File bs) ∨ opts.body = some (InvokeBody.Blob bs) ∨
        opts.body = some (InvokeBody.ArrayBuffer bs)) →
      req.body = RequestBody.bytes bs ∧
      mapLookup req.headers "content-type" = some "application/octet-stream") ∧
    (∀ s, opts.body = some (InvokeBody.String s) →
      req.body = RequestBody.text s ∧
      mapLookup req.headers "content-type" = some "text/plain") ∧
    (∀ j, opts.body = some (InvokeBody.Json j) →
      req.body = RequestBody.json j ∧
      mapLookup req.headers "content-type" = some "application/json") ∧
    (∀ f, opts.body = some (InvokeBody.FormData f) →
      req.body = RequestBody.multipart f ∧
      ∀ req0, buildRequest self fn (some { opts with body := Option.none }) = Except.ok req0 →
        req.headers = req0.headers) ∧
    (opts.body = Option.none → req.body = RequestBody.none) := by
  obtain ⟨base, rh, h1, h2, hreq⟩ := buildRequest_ok h
  subst hreq
  refine ⟨?_, ?_, ?_, ?_, ?_⟩
  · rintro bs (hb | hb | hb) <;> rw [hb] <;>
      exact ⟨rfl, mapLookup_insert_self _ _ _⟩
  · intro s hb; rw [hb]; exact ⟨rfl, mapLookup_insert_self _ _ _⟩
  · intro j hb; rw [hb]; exact ⟨rfl, mapLookup_insert_self _ _ _⟩
  · intro f hb; rw [hb]
    refine ⟨rfl, ?_⟩
    intro req0 h0
    obtain ⟨base0, rh0, h10, h20, hreq0⟩ := buildRequest_ok h0
    have h10' : buildReqHeaders self.headers = Except.ok base0 := h10
    cases Except.ok.inj (h1.symm.trans h10')
    have h20' : regionHeaders base opts.region = Except.ok rh0 := h20
    cases Except.ok.inj (h2.symm.trans h20')
    rw [hreq0]
    rfl
  · intro hb; rw [hb]; rfl

theorem body_variant_sets_content_type_witness :
    (Request.mk Method.POST "u/f" [("content-type", "text/plain")]
      (RequestBody.text "hi")).body = RequestBody.text "hi" ∧
    mapLookup (Request.mk Method.POST "u/f" [("content-type", "text/plain")]
      (RequestBody.text "hi")).headers "content-type" = some "text/plain" :=
  (body_variant_sets_content_type
    (FunctionsClient.mk "u" [] FunctionRegion.Any) "f"
    (FunctionInvokeOptions.mk Option.none Option.none Option.none
      (some (InvokeBody.String "hi")))
    (Request.mk Method.POST "u/f" [("content-type", "text/plain")] (RequestBody.text "hi"))
    rfl).2.1 "hi" rfl

/-- Claim C5: a supplied per-call region other than the wildcard `Any`
puts the `x-region` header with the region's canonical
lowercase-hyphenated encoding on the request; the wildcard is never
serialized (building with region `Any` is identical to building with no
region at all), and the encoding really is lowercase-hyphenated, e.g.
`us-east-1`. -/
theorem region_header_encoding :
    (∀ (self : FunctionsClient) (fn : String) (opts : FunctionInvokeOptions)
        (region : FunctionRegion) (req : Request),
      opts.region = some region → region ≠ FunctionRegion.Any →
      buildRequest self fn (some opts) = Except.ok req →
      mapLookup req.headers "x-region" = some region.toString) ∧
    (∀ (self : FunctionsClient) (fn : String) (opts : FunctionInvokeOptions),
      buildRequest self fn (some { opts with region := some FunctionRegion.Any }) =
        buildRequest self fn (some { opts with region := Option.none })) ∧
    (∀ region : FunctionRegion, region ≠ FunctionRegion.Any →
      region.toString.data.all (fun c => c.isLower || c.isDigit || c == '-') = true) ∧
    FunctionRegion.UsEast1.toString = "us-east-1" := by
  refine ⟨?_, ?_, ?_, rfl⟩
  · intro self fn opts region req hr hAny h
    obtain ⟨base, rh, h1, h2, hreq⟩ := buildRequest_ok h
    subst hreq
    rw [hr] at h2
    simp only [regionHeaders, if_pos hAny, headerValueFromStr_region] at h2
    cases Except.ok.inj h2
    rw [finishRequest_headers_lookup _ _ _ _ _ (by decide)]
    exact mapLookup_insert_self _ _ _
  · intro self fn opts
    simp [buildRequest_eq, regionHeaders]
  · intro region _
    cases region <;> decide

theorem region_header_encoding_witness :
    mapLookup (Request.mk Method.POST "http://localhost/fn" [("x-region", "us-east-1")]
      RequestBody.none).headers "x-region" = some FunctionRegion.UsEast1.toString :=
  region_header_encoding.1
    (FunctionsClient.mk "http://localhost" [] FunctionRegion.Any) "fn"
    (FunctionInvokeOptions.mk Option.none Option.none (some FunctionRegion.UsEast1)
      Option.none)
    FunctionRegion.UsEast1
    (Request.mk Method.POST "http://localhost/fn" [("x-region", "us-east-1")]
      RequestBody.none)
    rfl (by decide) rfl

/-- Claim C6 is contradicted by the code: a client whose stored default
region is `UsEast1` and an invocation whose options carry no region
produce a request with no `x-region` header at all. -/
theorem default_region_counterexample :
    buildRequest (FunctionsClient.mk "http://localhost" [] FunctionRegion.UsEast1)
      "fn" (some FunctionInvokeOptions.default) =
      Except.ok (Request.mk Method.POST "http://localhost/fn" [] RequestBody.none) ∧
    mapLookup (Request.mk Method.POST "http://localhost/fn" [] RequestBody.none).headers
      "x-region" ≠ some FunctionRegion.UsEast1.toString :=
  ⟨rfl, by decide⟩

/-- Claim C6 (amended): the client's stored default region is never
consulted by the request builder - the built request is independent of
it, and when the per-call options carry no region (shown here for a
client with no persistent headers) the outgoing request carries no
`x-region` header. -/
theorem default_region_ignored :
    (∀ (self : FunctionsClient) (fn : String) (opts? : Option FunctionInvokeOptions)
        (r' : FunctionRegion),
      buildRequest { self with region := r' } fn opts? = buildRequest self fn opts?) ∧
    (∀ (self : FunctionsClient) (fn : String) (opts : FunctionInvokeOptions) (req : Request),
      opts.region = Option.none → self.headers = [] →
      buildRequest self fn (some opts) = Except.ok req →
      mapLookup req.headers "x-region" = Option.none) := by
  constructor
  · intro self fn opts? r'; cases self; rfl
  · intro self fn opts req hregion hheaders h
    obtain ⟨base, rh, h1, h2, hreq⟩ := buildRequest_ok h
    rw [hheaders] at h1
    cases Except.ok.inj ((show buildReqHeaders [] = Except.ok [] from rfl).symm.trans h1)
    rw [hregion] at h2
    cases Except.ok.inj ((show regionHeaders [] Option.none = Except.ok [] from rfl).symm.trans h2)
    subst hreq
    rw [finishRequest_headers_lookup _ _ _ _ _ (by decide)]
    rfl

theorem default_region_ignored_witness :
    mapLookup (Request.mk Method.POST "http://localhost/fn" [] RequestBody.none).headers
      "x-region" = Option.none :=
  default_region_ignored.2
    (FunctionsClient.mk "http://localhost" [] FunctionRegion.UsEast1) "fn"
    FunctionInvokeOptions.default
    (Request.mk Method.POST "http://localhost/fn" [] RequestBody.none)
    rfl rfl rfl

/-- Claim C7: the per-call `headers` field of the invocation options is
never read - both the built request and the whole invocation are
unchanged by it, so the outgoing header set is the persistent headers
plus only the region- and body-driven entries. -/
theorem per_call_headers_ignored :
    (∀ (self : FunctionsClient) (fn : String) (opts : FunctionInvokeOptions)
        (h' : Option (List (String × String))),
      buildRequest self fn (some { opts with headers := h' }) =
        buildRequest self fn (some opts)) ∧
    (∀ (self : FunctionsClient) (fn : String) (opts : FunctionInvokeOptions)
        (h' : Option (List (String × String))) (send : Request → Except String Response),
      invoke self fn (some { opts with headers := h' }) send =
        invoke self fn (some opts) send) := by
  constructor
  · intro self fn opts h'; cases opts; rfl
  · intro self fn opts h' send; cases opts; rfl

/-- Claim C2: the decoder cuts the declared content type at the first
semicolon (defaulting to text/plain when the header is absent) and
dispatches by exact, case-sensitive match - JSON for application/json,
raw bytes for application/octet-stream, UTF-8 text for text/event-stream,
a JSON object of strings for multipart/form-data, and UTF-8 text without
error for everything else. -/
theorem decoder_dispatch_by_content_type (r : Response)
    (hrelay : mapLookup r.headers "x-relay-error" ≠ some "true")
    (hstatus : statusIsSuccess r.status = true) :
    (mapLookup r.headers "content-type" = Option.none → contentTypeOf r = "text/plain") ∧
    (∀ s, mapLookup r.headers "content-type" = some s → contentTypeOf r = beforeSemi s) ∧
    (contentTypeOf r = "application/json" →
      handleResponse r = (r.jsonBody.mapError FunctionsError.FetchError).map
        (fun v => FunctionsResponse.Success (ResponseData.Json v))) ∧
    (contentTypeOf r = "application/octet-stream" →
      handleResponse r = (r.bytesBody.mapError FunctionsError.FetchError).map
        (fun b => FunctionsResponse.Success (ResponseData.Bytes b))) ∧
    (contentTypeOf r = "text/event-stream" →
      handleResponse r = (r.textBody.mapError FunctionsError.FetchError).map
        (fun t => FunctionsResponse.Success (ResponseData.Text t))) ∧
    (contentTypeOf r = "multipart/form-data" →
      handleResponse r = (r.formBody.mapError FunctionsError.FetchError).map
        (fun m => FunctionsResponse.Success (ResponseData.FormData m))) ∧
    (contentTypeOf r ≠ "application/json" → contentTypeOf r ≠ "application/octet-stream" →
      contentTypeOf r ≠ "text/event-stream" → contentTypeOf r ≠ "multipart/form-data" →
      handleResponse r = (r.textBody.mapError FunctionsError.FetchError).map
        (fun t => FunctionsResponse.Success (ResponseData.Text t))) := by
  have hmain : handleResponse r = Except.bind (decodeData r (contentTypeOf r))
      (fun data => Except.ok (FunctionsResponse.Success data)) := by
    unfold handleResponse
    rw [if_neg hrelay, if_neg (by simp [hstatus])]
    rfl
  refine ⟨?_, ?_, ?_, ?_, ?_, ?_, ?_⟩
  · intro hnone; unfold contentTypeOf; rw [hnone]; decide
  · intro s hs; unfold contentTypeOf; rw [hs]; rfl
  · intro hct
    rw [hmain]; unfold decodeData; rw [hct, if_pos rfl]
    cases hx : r.jsonBody <;> simp [hx, Except.map, Except.mapError, Except.bind]
  · intro hct
    rw [hmain]; unfold decodeData; rw [hct, if_neg (by decide), if_pos rfl]
    cases hx : r.bytesBody <;> simp [hx, Except.map, Except.mapError, Except.bind]
  · intro hct
    rw [hmain]; unfold decodeData
    rw [hct, if_neg (by decide), if_neg (by decide), if_pos rfl]
    cases hx : r.textBody <;> simp [hx, Except.map, Except.mapError, Except.bind]
  · intro hct
    rw [hmain]; unfold decodeData
    rw [hct, if_neg (by decide), if_neg (by decide), if_neg (by decide), if_pos rfl]
    cases hx : r.formBody <;> simp [hx, Except.map, Except.mapError, Except.bind]
  · intro hct1 hct2 hct3 hct4
    rw [hmain]; unfold decodeData
    rw [if_neg hct1, if_neg hct2, if_neg hct3, if_neg hct4]
    cases hx : r.textBody <;> simp [hx, Except.map, Except.mapError, Except.bind]

theorem decoder_dispatch_by_content_type_witness :
    contentTypeOf (Response.mk 200 [] (Except.error "e") (Except.error "e")
      (Except.ok "hello") (Except.error "e")) = "text/plain" :=
  (decoder_dispatch_by_content_type
    (Response.mk 200 [] (Except.error "e") (Except.error "e") (Except.ok "hello")
      (Except.error "e"))
    (by decide) (by decide)).1 rfl

/-- Claim C8: two successive `set_auth` calls leave exactly one
`Authorization` entry, holding `Bearer` followed by the second token
(last write wins, no duplication), and nothing else of the client state
changes. -/
theorem set_auth_overwrites (self : FunctionsClient) (t1 t2 : String)
    (h : keyCount self.headers "Authorization" ≤ 1) :
    mapLookup ((self.set_auth t1).set_auth t2).headers "Authorization" =
      some ("Bearer " ++ t2) ∧
    keyCount ((self.set_auth t1).set_auth t2).headers "Authorization" = 1 ∧
    (∀ k, k ≠ "Authorization" →
      mapLookup ((self.set_auth t1).set_auth t2).headers k = mapLookup self.headers k) ∧
    ((self.set_auth t1).set_auth t2).url = self.url ∧
    ((self.set_auth t1).set_auth t2).region = self.region := by
  refine ⟨mapLookup_insert_self _ _ _, ?_, ?_, rfl, rfl⟩
  · show keyCount (mapInsert (mapInsert self.headers "Authorization" ("Bearer " ++ t1))
        "Authorization" ("Bearer " ++ t2)) "Authorization" = 1
    rw [keyCount_insert, keyCount_insert]
    omega
  · intro k hk
    show mapLookup (mapInsert (mapInsert self.headers "Authorization" ("Bearer " ++ t1))
        "Authorization" ("Bearer " ++ t2)) k = mapLookup self.headers k
    rw [mapLookup_insert_ne _ _ _ _ hk, mapLookup_insert_ne _ _ _ _ hk]

theorem set_auth_overwrites_witness :
    mapLookup (((FunctionsClient.mk "u" [] FunctionRegion.Any).set_auth "t1").set_auth
      "t2").headers "Authorization" = some ("Bearer " ++ "t2") :=
  (set_auth_overwrites (FunctionsClient.mk "u" [] FunctionRegion.Any) "t1" "t2"
    (by decide)).1

/-- Claim C9: the invocation uses the caller-supplied method or POST by
default, and converting any `HttpMethod` value's canonical string into
the transport method type always succeeds, so the parse-failure branch
of `method_str.parse().unwrap()` is unreachable. -/
theorem method_parse_total
    (self : FunctionsClient) (fn : String) (opts : FunctionInvokeOptions) (req : Request)
    (h : buildRequest self fn (some opts) = Except.ok req) :
    (∀ m : HttpMethod, Method.fromStr m.as_str = some (stdMethod m)) ∧
    req.method = stdMethod (opts.method.getD HttpMethod.Post) := by
  have htotal : ∀ m : HttpMethod, Method.fromStr m.as_str = some (stdMethod m) := by
    intro m; cases m <;> rfl
  refine ⟨htotal, ?_⟩
  obtain ⟨base, rh, h1, h2, hreq⟩ := buildRequest_ok h
  subst hreq
  rw [finishRequest_method, htotal]
  rfl

theorem method_parse_total_witness :
    Method.fromStr HttpMethod.Delete.as_str = some (stdMethod HttpMethod.Delete) :=
  (method_parse_total (FunctionsClient.mk "u" [] FunctionRegion.Any) "f"
    FunctionInvokeOptions.default
    (Request.mk Method.POST "u/f" [] RequestBody.none) rfl).1 HttpMethod.Delete

/-- Claim C10: the public `invoke` never produces
`FunctionsResponse::Failure` - every failure travels through the error
side of the result as a `FunctionsError`, and every non-error return
wraps `Success` around one response payload. -/
theorem invoke_never_failure_variant
    (self : FunctionsClient) (fn : String) (opts? : Option FunctionInvokeOptions)
    (send : Request → Except String Response) (r : FunctionsResponse)
    (h : invoke self fn opts? send = Except.ok r) :
    ∃ data, r = FunctionsResponse.Success data := by
  unfold invoke at h
  cases hb : buildRequest self fn opts? with
  | error e => rw [hb] at h; exact Except.noConfusion h
  | ok req =>
    rw [hb] at h
    have h' : (match send req with
        | Except.error e => Except.error (FunctionsError.FetchError e)
        | Except.ok response => handleResponse response) = Except.ok r := h
    cases hs : send req with
    | error e => rw [hs] at h'; exact Except.noConfusion h'
    | ok resp =>
      rw [hs] at h'
      have h2 : handleResponse resp = Except.ok r := h'
      unfold handleResponse at h2
      split at h2
      · exact Except.noConfusion h2
      · split at h2
        · exact Except.noConfusion h2
        · cases hd : decodeData resp (contentTypeOf resp) with
          | error e => rw [hd] at h2; exact Except.noConfusion h2
          | ok data =>
            rw [hd] at h2
            have h3 : Except.ok (FunctionsResponse.Success data) = Except.ok r := h2
            exact ⟨data, (Except.ok.inj h3).symm⟩

theorem invoke_never_failure_variant_witness :
    ∃ data, FunctionsResponse.Success (ResponseData.Text "hello") =
      FunctionsResponse.Success data :=
  invoke_never_failure_variant (FunctionsClient.mk "u" [] FunctionRegion.Any) "f"
    Option.none
    (fun _ => Except.ok (Response.mk 200 [] (Except.error "e") (Except.error "e")
      (Except.ok "hello") (Except.error "e")))
    (FunctionsResponse.Success (ResponseData.Text "hello")) rfl

end SupabaseFunctions
